import Mathlib

/-!
Verification development for the metadata-driven CLI resolver and value-coercion
engine (TypeScript sources: valueParser.ts, util.ts, cli.ts, metaInterface.ts,
ast.ts).  Each TypeScript function relevant to the checked properties is
embedded as an executable Lean definition; theorems about those definitions
settle the individual claims.
-/

/-! ## Type-name parser (valueParser.ts) -/

/-- `GenericTypeName` from valueParser.ts: `{typeName: string, typeParameters: GenericTypeName[]}`. -/
structure GenericTypeName where
  typeName : String
  typeParameters : List GenericTypeName
  deriving Repr

/-- `isIdentifierChar(ch, position)` from valueParser.ts.  The source tests the
ranges a-z, A-Z (twice, a harmless duplication kept out of the embedding since
both branches return the same value), underscore, dollar, and digits at
position > 0. -/
def isIdentifierChar (ch : Char) (position : Nat) : Bool :=
  if 'a' ≤ ch ∧ ch ≤ 'z' then true
  else if 'A' ≤ ch ∧ ch ≤ 'Z' then true
  else if ch = '_' ∨ ch = '$' then true
  else if position > 0 ∧ '0' ≤ ch ∧ ch ≤ '9' then true
  else false

/-- `readTypeNameFromReader(reader)` from valueParser.ts, embedded as a fueled
recursion over the remaining character stream.  The mutable loop state
(`nameOver`, `typeOver`, `buffer`, `typeParameters`) is threaded explicitly;
the function returns the produced descriptor together with the characters the
shared `StringReader` has not consumed, mirroring how the recursive call in the
source advances the shared reader.  `none` models a thrown
`Failed to read type name` error (or fuel exhaustion, which never occurs when
the fuel exceeds three times the input length). -/
def readTypeNameFromReader (fuel : Nat) (chars : List Char)
    (nameOver typeOver : Bool) (buffer : List Char)
    (typeParameters : List GenericTypeName) : Option (GenericTypeName × List Char) :=
  match fuel with
  | 0 => none
  | fuel + 1 =>
    match chars with
    | [] => some (⟨String.mk buffer, typeParameters⟩, [])
    | ch :: rest =>
      if ch = ' ' then
        if buffer.length > 0 then
          readTypeNameFromReader fuel rest true typeOver buffer typeParameters
        else
          readTypeNameFromReader fuel rest nameOver typeOver buffer typeParameters
      else if !nameOver ∧ !typeOver ∧ isIdentifierChar ch buffer.length then
        readTypeNameFromReader fuel rest nameOver typeOver (buffer ++ [ch]) typeParameters
      else if ch = '<' ∨ ch = ',' then
        match readTypeNameFromReader fuel rest false false [] [] with
        | none => none
        | some (child, rest2) =>
          readTypeNameFromReader fuel rest2 true typeOver buffer (typeParameters ++ [child])
      else if ch = '>' then
        readTypeNameFromReader fuel rest true true buffer typeParameters
      else
        none

/-- Model of `String.prototype.endsWith` via character lists. -/
def jsEndsWith (s sfx : String) : Bool :=
  sfx.toList.isSuffixOf s.toList

/-- The reachable branch of `getArrayElementTypeName` in valueParser.ts:
`parseTypeName` only calls it when the name ends in `[]`, where it returns
`typeName.substring(0, typeName.length - 2)`. -/
def getArrayElementTypeName (typeName : String) : String :=
  String.mk (typeName.toList.take (typeName.length - 2))

/-- `parseTypeName(typeName)` from valueParser.ts: the `[]` shorthand desugars
to base name `Array` with the raw element text as its single, unparsed type
parameter; otherwise the character-stream reader runs on the whole string. -/
def parseTypeName (typeName : String) : Option GenericTypeName :=
  if jsEndsWith typeName "[]" then
    some ⟨"Array", [⟨getArrayElementTypeName typeName, []⟩]⟩
  else
    (readTypeNameFromReader (3 * typeName.length + 3) typeName.toList
      false false [] []).map (·.1)

/-! ## Value-coercion registry (valueParser.ts together with util.ts) -/

/-- Values produced by the coercion registry (`unknown` in the TypeScript
signatures).  `num` carries the JavaScript number model below, `undef` is the
JavaScript `undefined` placed for a record entry without a separator, and
`record` keeps entries in JavaScript object insertion order. -/
inductive PValue where
  | str (s : String)
  | num (isNaN : Bool) (n : Int)
  | bool (b : Bool)
  | bigint (n : Int)
  | undef
  | arr (elems : List PValue)
  | record (entries : List (String × PValue))
  deriving Repr, BEq

/-- Model of the JavaScript `Number` builtin on strings, restricted to the
optional-sign decimal integers any claim could exercise: the trimmed empty
string is `0`, a decimal integer is itself, anything else is `NaN`.
(`Number` is an external JavaScript builtin, not repository code.) -/
def jsNumber (s : String) : PValue :=
  let t := s.trim
  if t = "" then .num false 0
  else
    match t.toInt? with
    | some n => .num false n
    | none => .num true 0

/-- Model of the JavaScript `BigInt` builtin on strings: a decimal integer
maps to itself, anything else throws a `SyntaxError`.  (External builtin, not
repository code; no claim evaluates it.) -/
def jsBigInt (s : String) : Except String PValue :=
  match s.trim.toInt? with
  | some n => .ok (.bigint n)
  | none => .error "Cannot convert string to a BigInt"

/-- Model of the JavaScript `Date.parse` builtin, which no claim exercises:
every input is mapped to `NaN`.  (External builtin, not repository code.) -/
def jsDateParse (_ : String) : PValue :=
  .num true 0

/-- Model of the JavaScript `Boolean` builtin on strings: `true` exactly for a
nonempty string. -/
def jsBoolean (s : String) : PValue :=
  .bool (s ≠ "")

/-- A registered text-to-value coercer (`Parser<unknown>` in valueParser.ts),
with `Except` modelling a thrown error. -/
def JsParser : Type := String → Except String PValue

/-- The built-in parser map installed by the `ParserRegistry` constructor:
`String`, `Number`, `BigInt`, `Boolean`, `Date.parse`, and `identity` for
`undefined` / `unknown` / `any` (identity returns the argument string
unchanged). -/
def builtinParsers : String → Option JsParser
  | "string" => some (fun s => .ok (.str s))
  | "number" => some (fun s => .ok (jsNumber s))
  | "bigint" => some jsBigInt
  | "boolean" => some (fun s => .ok (jsBoolean s))
  | "date" => some (fun s => .ok (jsDateParse s))
  | "undefined" => some (fun s => .ok (.str s))
  | "unknown" => some (fun s => .ok (.str s))
  | "any" => some (fun s => .ok (.str s))
  | _ => none

/-- The `ParserRegistry` state: caller-supplied parsers are spread after the
built-ins (`{...builtins, ...options.parsers}`), so a caller entry wins, and
the three separators default to `,` / `,` / `=`. -/
structure ParserRegistry where
  extraParsers : String → Option JsParser
  arraySeparator : String := ","
  recordEntrySeparator : String := ","
  recordKeyValueSeparator : String := "="

/-- Lookup in the merged parser map (`this.parsers[name]`). -/
def ParserRegistry.lookup (reg : ParserRegistry) (name : String) : Option JsParser :=
  (reg.extraParsers name).orElse (fun _ => builtinParsers name)

/-- The registry built from `ParserRegistryOptions` with no caller-supplied
parsers and all separators left to their defaults — the configuration every
checked property uses. -/
def defaultRegistry : ParserRegistry where
  extraParsers := fun _ => none

/-- Split on every leftmost occurrence of a nonempty separator, fuelled by the
input length (each step consumes at least one character, so fuel equal to the
length plus one is always enough). -/
def splitListOnAux (fuel : Nat) (sep : List Char) (l : List Char) : List (List Char) :=
  match fuel with
  | 0 => [l]
  | fuel + 1 =>
    match l with
    | [] => [[]]
    | c :: rest =>
      if sep.isPrefixOf (c :: rest) then
        [] :: splitListOnAux fuel sep ((c :: rest).drop sep.length)
      else
        match splitListOnAux fuel sep rest with
        | [] => [[c]]
        | g :: gs => (c :: g) :: gs

/-- Model of `String.prototype.split` with a nonempty string separator (every
separator the registry is configured with is nonempty; the empty-separator
behaviour of JavaScript is not modelled). -/
def jsSplit (s sep : String) : List String :=
  if sep = "" then [s]
  else (splitListOnAux (s.toList.length + 1) sep.toList s.toList).map String.mk

/-- `splitOnceOrZero(text, {separator, trim})` from util.ts: split at the first
occurrence of the separator, returning a one-element result when the separator
is absent.  Faithful to the source, the right part starts at `pos + 1`
regardless of the separator's length.  The second component is `none` exactly
when the source returns a one-tuple. -/
def splitOnceOrZero (text separator : String) (trim : Bool) : String × Option String :=
  match List.range (text.toList.length + 1) |>.find?
      (fun i => separator.toList.isPrefixOf (text.toList.drop i)) with
  | none => (text, none)
  | some pos =>
    let left := String.mk (text.toList.take pos)
    let right := String.mk (text.toList.drop (pos + 1))
    if trim then (left.trim, some right.trim) else (left, some right)

/-- The JavaScript property-access key for a possibly `undefined` destructured
type-parameter name: accessing `obj[undefined]` reads the key `"undefined"`. -/
def jsKey (name : Option String) : String :=
  name.getD "undefined"

/-- `ParserRegistry.parseArray(elementTypeName, text)` from valueParser.ts.
The element type name may be `undefined` when the parsed descriptor had no
type parameters (the `jsKey` access then finds the registered `undefined`
identity parser, exactly as the JavaScript lookup does). -/
def ParserRegistry.parseArray (reg : ParserRegistry) (elementTypeName : Option String)
    (text : String) : Except String PValue :=
  match reg.lookup (jsKey elementTypeName) with
  | none => .error ("No parser for type: " ++ jsKey elementTypeName)
  | some reader => do
    let elems ← (jsSplit text reg.arraySeparator).mapM reader
    pure (.arr elems)

/-- The string JavaScript uses for a value appearing as an object key in
`Object.fromEntries` (only key shapes a key coercer can produce matter). -/
def pvalueKeyString : PValue → String
  | .str s => s
  | .num true _ => "NaN"
  | .num false n => toString n
  | .bool b => toString b
  | .bigint n => toString n
  | .undef => "undefined"
  | .arr _ => ""
  | .record _ => "[object Object]"

/-- `Object.fromEntries`: later entries overwrite earlier ones while the key
keeps its first insertion position. -/
def jsFromEntries : List (String × PValue) → List (String × PValue)
  | [] => []
  | (k, v) :: rest =>
    let rest2 := jsFromEntries rest
    if rest2.any (fun p => p.1 = k) then
      rest2.map (fun p => if p.1 = k then (k, v) else p)
    else
      (k, v) :: rest2

/-- `ParserRegistry.parseRecord(keyTypeName, valueTypeName, text)` from
valueParser.ts: split on the entry separator, split each entry once on the
key/value separator, coerce the key, coerce the value only when present
(an absent value becomes `undefined` without calling the value coercer), and
assemble with `Object.fromEntries`. -/
def ParserRegistry.parseRecord (reg : ParserRegistry)
    (keyTypeName valueTypeName : Option String) (text : String) :
    Except String PValue :=
  match reg.lookup (jsKey keyTypeName), reg.lookup (jsKey valueTypeName) with
  | none, _ => .error ("No parser for type: " ++ jsKey keyTypeName)
  | some _, none => .error ("No parser for type: " ++ jsKey valueTypeName)
  | some keyReader, some valueReader => do
    let entryStrings := jsSplit text reg.recordEntrySeparator
    let entryTuples := entryStrings.map
      (fun s => splitOnceOrZero s reg.recordKeyValueSeparator false)
    let typedEntries ← entryTuples.mapM (fun kv => do
      let key ← keyReader kv.1
      match kv.2 with
      | none => pure (pvalueKeyString key, PValue.undef)
      | some v => do
        let value ← valueReader v
        pure (pvalueKeyString key, value))
    pure (.record (jsFromEntries typedEntries))

/-- `ARRAY_BASE_TYPE_NAMES` from valueParser.ts. -/
def ARRAY_BASE_TYPE_NAMES : List String := ["Array", "ReadonlyArray", "Set", "ReadonlySet"]

/-- `RECORD_BASE_TYPE_NAMES` from valueParser.ts. -/
def RECORD_BASE_TYPE_NAMES : List String := ["Record", "Map", "ReadonlyMap"]

/-- `ParserRegistry.parse(typeName, text)` from valueParser.ts — the `coerce`
operation: a directly registered name is applied; otherwise the type name is
parsed and dispatched to the array or the record decoder on its base name,
destructuring the type-parameter names from the descriptor (a missing
destructured position is `undefined`); any other base name throws. -/
def ParserRegistry.parse (reg : ParserRegistry) (typeName text : String) :
    Except String PValue :=
  match reg.lookup typeName with
  | some p => p text
  | none =>
    match parseTypeName typeName with
    | none => .error ("Failed to read type name " ++ typeName)
    | some parsedTypeName =>
      let paramNames := parsedTypeName.typeParameters.map (·.typeName)
      if ARRAY_BASE_TYPE_NAMES.contains parsedTypeName.typeName then
        reg.parseArray paramNames[0]? text
      else if RECORD_BASE_TYPE_NAMES.contains parsedTypeName.typeName then
        reg.parseRecord paramNames[0]? paramNames[1]? text
      else
        .error ("No parser for type: " ++ typeName)

/-! ## Boolean flag vocabulary (cli.ts) -/

/-- `FLAG_NO_VALUES` from cli.ts. -/
def FLAG_NO_VALUES : List String := ["no", "0", "off", "false"]

/-- `FLAG_YES_VALUES` from cli.ts. -/
def FLAG_YES_VALUES : List String := ["yes", "1", "on", "true"]

/-- Model of `String.prototype.toLowerCase` for the ASCII strings involved. -/
def jsToLowerCase (s : String) : String :=
  String.mk (s.toList.map Char.toLower)

/-- `booleanFlagValue(value, {defaultValue})` from cli.ts: a falsy input
(`undefined` or the empty string) yields the default; otherwise the lowercased
text is looked up in the no-list and then the yes-list, and anything else
throws (`Except.error`). -/
def booleanFlagValue (value : Option String) (defaultValue : Bool) : Except String Bool :=
  match value with
  | none => .ok defaultValue
  | some v =>
    if v = "" then .ok defaultValue
    else
      let lowerValue := jsToLowerCase v
      if FLAG_NO_VALUES.contains lowerValue then .ok false
      else if FLAG_YES_VALUES.contains lowerValue then .ok true
      else .error ("Illegal boolean flag value: " ++ v ++
        " (expected one of no,0,off,false,yes,1,on,true)")

/-! ## Flag token parsing (cli.ts, `Cli.runInternal`) -/

/-- `FLAG_PREFIX` from cli.ts. -/
def FLAG_PREFIX : String := "--"

/-- Model of `String.prototype.startsWith`. -/
def jsStartsWith (s sought : String) : Bool :=
  sought.toList.isPrefixOf s.toList

/-- Model of `String.prototype.split` with a one-character separator: split on
every occurrence.  Splitting the empty list yields one empty group, matching
`"".split(c) === [""]`. -/
def splitAllChar (c : Char) : List Char → List (List Char)
  | [] => [[]]
  | ch :: rest =>
    if ch = c then
      [] :: splitAllChar c rest
    else
      match splitAllChar c rest with
      | [] => [[ch]]
      | g :: gs => (ch :: g) :: gs

/-- Model of `Array.prototype.join` with a one-character separator. -/
def joinSep (c : Char) : List (List Char) → List Char
  | [] => []
  | [g] => g
  | g :: gs => g ++ c :: joinSep c gs

/-- The flag-token decomposition in `Cli.runInternal`:
`const [name, ...values] = arg.substring(FLAG_PREFIX.length).split('=');`
`const value = values.join('=');` — name is the first `=`-separated segment
after the prefix, the value rejoins everything after it. -/
def parseFlagToken (arg : String) : String × String :=
  match splitAllChar '=' (arg.toList.drop FLAG_PREFIX.length) with
  | [] => ("", "")
  | name :: values => (String.mk name, String.mk (joinSep '=' values))

/-! ## The argv resolver (cli.ts, `Cli.runInternal`) -/

/-- A node of the live command tree: the JavaScript values `runInternal`
distinguishes with `typeof` — the four emittable scalar shapes, a callable
(identified by name so an invocation outcome can record which callable ran),
a composite object with string-keyed members, and `null`/`undefined`.
Prototype-inherited members are not modelled. -/
inductive JsValue where
  | vStr (s : String)
  | vNum (n : Int)
  | vBool (b : Bool)
  | vBigint (n : Int)
  | vFunc (id : String)
  | vObj (members : List (String × JsValue))
  | vNull
  deriving Repr, BEq

/-- The resolver context: either a live-tree value or the bound `showHelp`
method installed when the help keyword is consumed (a JavaScript function, so
dispatch treats it as a callable applied to the positional arguments). -/
inductive Ctx where
  | val (v : JsValue)
  | helpFn
  deriving Repr, BEq

/-- First-match association lookup, the JavaScript own-property access. -/
def lookupMember : List (String × JsValue) → String → Option JsValue
  | [], _ => none
  | (k, v) :: rest, name => if k = name then some v else lookupMember rest name

/-- `(context as Record<string, unknown>)[arg]`: a member read on the current
context.  Reads on non-object contexts yield `undefined`; they are only ever
performed under `contextFinal`, where the result is discarded. -/
def getProp : Ctx → String → Option JsValue
  | .val (.vObj members), name => lookupMember members name
  | _, _ => none

/-- `contextProp != null`: the read found a member whose value is neither
`null` nor `undefined`. -/
def isNotNull : Option JsValue → Bool
  | some .vNull => false
  | some _ => true
  | none => false

/-- The mutable locals of `Cli.runInternal` while walking `rawArgs`. -/
structure CliState where
  context : Ctx
  contextDepth : Nat
  contextFinal : Bool
  positionalArgs : List String
  flags : List (String × String)
  deriving Repr, BEq

/-- `flags[name] = value`: JavaScript object assignment — overwrite in place
when the key exists, append otherwise. -/
def setFlag (flags : List (String × String)) (name value : String) :
    List (String × String) :=
  if flags.any (fun p => p.1 = name) then
    flags.map (fun p => if p.1 = name then (name, value) else p)
  else
    flags ++ [(name, value)]

/-- One iteration of the `for (const arg of this.rawArgs)` loop in
`Cli.runInternal`: the help keyword at depth 0 (when `autoHelp`) installs the
help context and finalises; otherwise a non-null member read descends —
finalising on the scalar and function `typeof` cases — and a failed or
finalised read classifies the token as a flag (when it starts with the flag
prefix) or as a positional. -/
def runStep (autoHelp : Bool) (s : CliState) (arg : String) : CliState :=
  if autoHelp ∧ s.contextDepth = 0 ∧ jsToLowerCase arg = "help" then
    { s with context := .helpFn, contextDepth := s.contextDepth + 1, contextFinal := true }
  else
    let contextProp := getProp s.context arg
    if ¬s.contextFinal ∧ isNotNull contextProp then
      match contextProp with
      | some v =>
        match v with
        | .vObj _ =>
          { s with context := .val v, contextDepth := s.contextDepth + 1 }
        | .vNull => s
        | _ =>
          { s with context := .val v, contextDepth := s.contextDepth + 1,
                   contextFinal := true }
      | none => s
    else if jsStartsWith arg FLAG_PREFIX then
      let nv := parseFlagToken arg
      { s with flags := setFlag s.flags nv.1 nv.2 }
    else
      { s with positionalArgs := s.positionalArgs ++ [arg] }

/-- The terminal action of `Cli.runInternal` once every token is consumed. -/
inductive Outcome where
  | emit (v : JsValue)
  | invoke (id : String) (args : List String)
  | renderHelp (path : List String)
  | fatalError (msg : String)
  deriving Repr, BEq

/-- The trailing `switch (typeof context)` of `Cli.runInternal`: scalars are
emitted through the value handler, a callable (the bound `showHelp` included)
is invoked with the accumulated positionals spread as arguments, and anything
else — an object context in particular — fails gracefully with the fixed
error message. -/
def dispatch (s : CliState) : Outcome :=
  match s.context with
  | .helpFn => .renderHelp s.positionalArgs
  | .val v =>
    match v with
    | .vStr _ | .vNum _ | .vBool _ | .vBigint _ => .emit v
    | .vFunc id => .invoke id s.positionalArgs
    | .vObj _ => .fatalError "i dunno what to do"
    | .vNull => .fatalError "i dunno what to do"

/-- The state after walking all of `rawArgs` from the initial context. -/
def resolveArgs (autoHelp : Bool) (program : JsValue) (rawArgs : List String) :
    CliState :=
  rawArgs.foldl (runStep autoHelp) ⟨.val program, 0, false, [], []⟩

/-- `Cli.runInternal`: walk the tokens, then dispatch on the terminal
context. -/
def runInternal (autoHelp : Bool) (program : JsValue) (rawArgs : List String) :
    Outcome :=
  dispatch (resolveArgs autoHelp program rawArgs)

/-- The demo live command tree from demo.ts (callables identified by their
member names). -/
def demoProgram : JsValue :=
  .vObj [
    ("foo", .vObj [
      ("name", .vStr "shawn"),
      ("stuff", .vFunc "stuff"),
      ("bar", .vFunc "bar")]),
    ("goob", .vObj [
      ("middleName", .vStr "cameron"),
      ("lastName", .vStr "tabai")]),
    ("version", .vFunc "version")]

/-! ## The singleton binding (cli.ts, `Cli.of`) -/

/-- `Cli.of(program, metaInterface, options)` acting on the static
`Cli.instance` slot, returned as (updated slot, result): when an instance is
already installed it throws/exits without touching the slot, otherwise it
installs the freshly constructed instance and returns it. -/
def cliOf (instanceSlot : Option JsValue) (program : JsValue) :
    Option JsValue × Except String JsValue :=
  match instanceSlot with
  | some _ => (instanceSlot, .error "Cli is a singleton, cannot create multiple instances")
  | none => (some program, .ok program)

/-! ## Metadata types and help-text type rendering (metaInterface.ts, ast.ts) -/

mutual
/-- `MetaType` from metaInterface.ts.  `scalar` covers every string-typed
member of the union handled by the `typeof type === 'string'` branch of
`humanReadableType` (`MetaScalarType`, `MetaUnknownType`, `MetaVoidType`, and
record key types).  Object members are omitted: no checked property reads
them. -/
inductive MetaType where
  | scalar (s : String)
  | objectType (name : Option String)
  | arrayType (valueDataType : MetaTypeRef)
  | recordType (keyDataType : String) (valueDataType : MetaTypeRef)

/-- `MetaTypeRef` from metaInterface.ts: `{type, nullable}`. -/
inductive MetaTypeRef where
  | mk (type : MetaType) (nullable : Bool)
end

mutual
/-- `humanReadableType(type)` from ast.ts on the `MetaType` side of its union
argument: a bare string renders as itself, a record type (the branch testing
for `keyDataType`, which the source checks first) renders as
`Map<key, value>` — the key, itself a string, passes through the string
branch — an array type renders as its element rendering followed by `[]`, and
an object type renders as its name, falling back to `unknown` when
anonymous. -/
def humanReadableType : MetaType → String
  | .scalar s => s
  | .recordType k v =>
    -- the recursive call on the key goes through the string branch, which
    -- returns the key text unchanged
    "Map<" ++ k ++ ", " ++ humanReadableTypeRef v ++ ">"
  | .arrayType v => humanReadableTypeRef v ++ "[]"
  | .objectType name => name.getD "unknown"

/-- `humanReadableType` on a `MetaTypeRef` (the branch testing for a `type`
field): unwrap to the underlying type, discarding the nullable wrapper. -/
def humanReadableTypeRef : MetaTypeRef → String
  | .mk t _ => humanReadableType t
end

/-- Whether `sub` occurs as a contiguous substring of `s` (used to state that
an error message does not mention a token). -/
def strContains (s sub : String) : Bool :=
  (List.range (s.length + 1)).any (fun i => sub.toList.isPrefixOf (s.toList.drop i))

/-! ## Helper lemmas -/

theorem splitAllChar_ne_nil (c : Char) (l : List Char) : splitAllChar c l ≠ [] := by
  cases l with
  | nil => simp [splitAllChar]
  | cons ch rest =>
    unfold splitAllChar
    by_cases h : ch = c
    · simp [h]
    · simp only [if_neg h]
      cases hs : splitAllChar c rest <;> simp

theorem splitAllChar_no_occurrence (c : Char) (l : List Char) (h : c ∉ l) :
    splitAllChar c l = [l] := by
  induction l with
  | nil => rfl
  | cons ch rest ih =>
    have hch : ch ≠ c := fun hc => h (hc ▸ List.mem_cons_self ch rest)
    have hrest : c ∉ rest := fun hr => h (List.mem_cons_of_mem ch hr)
    unfold splitAllChar
    rw [if_neg hch, ih hrest]

theorem splitAllChar_cons_ne (c a : Char) (rest : List Char) (h : a ≠ c) :
    splitAllChar c (a :: rest) =
      match splitAllChar c rest with
      | [] => [[a]]
      | g :: gs => (a :: g) :: gs := by
  conv_lhs => rw [splitAllChar]
  rw [if_neg h]

theorem splitAllChar_first (c : Char) (pre post : List Char) (h : c ∉ pre) :
    splitAllChar c (pre ++ c :: post) = pre :: splitAllChar c post := by
  induction pre with
  | nil => simp [splitAllChar]
  | cons a pre ih =>
    have ha : a ≠ c := fun hc => h (hc ▸ List.mem_cons_self a pre)
    have hpre : c ∉ pre := fun hp => h (List.mem_cons_of_mem a hp)
    rw [List.cons_append, splitAllChar_cons_ne c a _ ha, ih hpre]

theorem joinSep_splitAllChar (c : Char) (l : List Char) :
    joinSep c (splitAllChar c l) = l := by
  induction l with
  | nil => rfl
  | cons ch rest ih =>
    unfold splitAllChar
    by_cases h : ch = c
    · subst h
      simp only [if_pos rfl]
      rcases hs : splitAllChar ch rest with _ | ⟨g, gs⟩
      · exact absurd hs (splitAllChar_ne_nil ch rest)
      · rw [hs] at ih
        simpa [joinSep] using ih
    · simp only [if_neg h]
      rcases hs : splitAllChar c rest with _ | ⟨g, gs⟩
      · exact absurd hs (splitAllChar_ne_nil c rest)
      · rw [hs] at ih
        cases gs with
        | nil => simpa [joinSep] using ih
        | cons g2 gs2 => simpa [joinSep] using ih

theorem flag_yes_not_no (l : String) (h : l ∈ FLAG_YES_VALUES) :
    l ∉ FLAG_NO_VALUES := by
  simp only [FLAG_YES_VALUES, List.mem_cons, List.not_mem_nil, or_false] at h
  rcases h with rfl | rfl | rfl | rfl <;> decide

theorem flag_yes_ne_empty (l : String) (h : l ∈ FLAG_YES_VALUES) :
    l ≠ "" := by
  simp only [FLAG_YES_VALUES, List.mem_cons, List.not_mem_nil, or_false] at h
  rcases h with rfl | rfl | rfl | rfl <;> decide

theorem flag_no_ne_empty (l : String) (h : l ∈ FLAG_NO_VALUES) :
    l ≠ "" := by
  simp only [FLAG_NO_VALUES, List.mem_cons, List.not_mem_nil, or_false] at h
  rcases h with rfl | rfl | rfl | rfl <;> decide

/-! ## Claim theorems -/

/-- C1: the claim states that parsing `B<T1,...,Tn>` yields the descriptors of
T1..Tn as siblings, in textual order, in `typeParameters`.  Plain identifiers
and single-parameter generics behave as claimed, but on the failing input
`Record<string,number>` the reader pushes the second type parameter into the
descriptor of the first, producing a nested chain instead of two siblings —
the destructuring `[keyTypeName, valueTypeName] = parsedTypeName.typeParameters.map(...)`
in `ParserRegistry.parse` shows the sibling layout is what the surrounding
code expects. -/
theorem c1_type_params_not_siblings :
    parseTypeName "number" = some ⟨"number", []⟩ ∧
    parseTypeName "number[]" = some ⟨"Array", [⟨"number", []⟩]⟩ ∧
    parseTypeName "Set<string>" = some ⟨"Set", [⟨"string", []⟩]⟩ ∧
    parseTypeName "Record<string,number>" =
      some ⟨"Record", [⟨"string", [⟨"number", []⟩]⟩]⟩ :=
  ⟨rfl, rfl, rfl, rfl⟩

/-- C2: `coerce("Record<string,number>", "a=1,b=2")` is claimed to yield
`{a:1, b:2}`.  Because the type-name parser nests `number` under `string`
(see C1), the destructured value type name is `undefined`, whose accidental
registry hit is the identity coercer, so the code actually yields the string
values `{a:"1", b:"2"}`.  The second part of the claim holds: with no
separator the entry maps to `undefined` without invoking any value coercer. -/
theorem c2_record_values_not_coerced :
    defaultRegistry.parse "Record<string,number>" "a=1,b=2" =
      .ok (.record [("a", .str "1"), ("b", .str "2")]) ∧
    defaultRegistry.parse "Record<string,number>" "a" =
      .ok (.record [("a", .undef)]) :=
  ⟨rfl, rfl⟩

/-- C3 counterexample: the claim says `coerce("boolean", "no")` returns
`false`; the registry applies the JavaScript `Boolean` builtin, so the
nonempty string `"no"` coerces to `true` (and no input ever fails). -/
theorem c3_counterexample :
    defaultRegistry.parse "boolean" "no" = .ok (.bool true) :=
  rfl

/-- C3 (amended): the registry coercer for `"boolean"` is the JavaScript
`Boolean` builtin — true exactly for a nonempty string, never failing — while
the yes/1/on/true and no/0/off/false vocabulary (case-insensitive, any other
nonempty value failing) is implemented by `booleanFlagValue`, which the CLI
applies to the DEBUG environment flag rather than to registry coercion. -/
theorem c3_boolean_vocabulary (v : String) (d : Bool) :
    defaultRegistry.parse "boolean" v = .ok (.bool (decide (v ≠ ""))) ∧
    (jsToLowerCase v ∈ FLAG_YES_VALUES →
      booleanFlagValue (some v) d = .ok true) ∧
    (jsToLowerCase v ∈ FLAG_NO_VALUES →
      booleanFlagValue (some v) d = .ok false) ∧
    (v ≠ "" → jsToLowerCase v ∉ FLAG_NO_VALUES →
      jsToLowerCase v ∉ FLAG_YES_VALUES →
      booleanFlagValue (some v) d =
        .error ("Illegal boolean flag value: " ++ v ++
          " (expected one of no,0,off,false,yes,1,on,true)")) := by
  refine ⟨rfl, ?_, ?_, ?_⟩
  · intro h
    have hlv := flag_yes_ne_empty _ h
    have hv : v ≠ "" := by
      intro hv0
      apply hlv
      rw [hv0]
      rfl
    have hno := flag_yes_not_no _ h
    simp [booleanFlagValue, hv, hno, h]
  · intro h
    have hlv := flag_no_ne_empty _ h
    have hv : v ≠ "" := by
      intro hv0
      apply hlv
      rw [hv0]
      rfl
    simp [booleanFlagValue, hv, h]
  · intro hv hno hyes
    simp [booleanFlagValue, hv, hno, hyes]

/-- Witness for C3 (amended) at concrete inputs: the vocabulary is
case-insensitive and anything outside it fails. -/
theorem c3_boolean_vocabulary_witness :
    booleanFlagValue (some "YES") false = .ok true ∧
    booleanFlagValue (some "Off") true = .ok false ∧
    booleanFlagValue (some "maybe") true =
      .error "Illegal boolean flag value: maybe (expected one of no,0,off,false,yes,1,on,true)" ∧
    defaultRegistry.parse "boolean" "YES" = .ok (.bool true) :=
  ⟨(c3_boolean_vocabulary "YES" false).2.1 (by decide),
   (c3_boolean_vocabulary "Off" true).2.2.1 (by decide),
   (c3_boolean_vocabulary "maybe" true).2.2.2 (by decide) (by decide) (by decide),
   (c3_boolean_vocabulary "YES" false).1⟩

/-- C4: the claim (and the spec) say that reaching end of input while still
Navigating on a group renders implicit help for that group.  The code instead
falls into the `default` arm of the terminal `switch (typeof context)` and
fails gracefully with the placeholder error `i dunno what to do`: on the demo
tree, argv `["foo"]` ends Navigating (contextFinal still false) on the `foo`
group object and produces the fatal error, as does an empty argv on the root
group. -/
theorem c4_group_end_is_fatal_error :
    (resolveArgs true demoProgram ["foo"]).contextFinal = false ∧
    (resolveArgs true demoProgram ["foo"]).context =
      .val (.vObj [("name", .vStr "shawn"), ("stuff", .vFunc "stuff"),
        ("bar", .vFunc "bar")]) ∧
    runInternal true demoProgram ["foo"] = .fatalError "i dunno what to do" ∧
    runInternal true demoProgram [] = .fatalError "i dunno what to do" :=
  ⟨rfl, rfl, rfl, rfl⟩

/-- C5 counterexample: the claim says a Navigating token matching nothing,
not flag-shaped, and not help makes the run fail with a "no such
command/group" error naming the token and path.  On the demo tree,
`["badtok"]` instead records the token as a positional and ends in the fixed
message `i dunno what to do`, which does not contain the token; and
`["junk", "version"]` does not fail at all — navigation continues past the
unmatched token and invokes `version`. -/
theorem c5_counterexample :
    runInternal true demoProgram ["badtok"] = .fatalError "i dunno what to do" ∧
    (resolveArgs true demoProgram ["badtok"]).positionalArgs = ["badtok"] ∧
    strContains "i dunno what to do" "badtok" = false ∧
    runInternal true demoProgram ["junk", "version"] = .invoke "version" ["junk"] :=
  ⟨rfl, rfl, rfl, rfl⟩

/-- C5 (amended): a Navigating-state token that matches no member of the live
object, does not start with the flag prefix, and is not consumed as help is
accumulated as a positional and resolution continues; when it is the only
token, the run then ends on the group context with the generic fatal error
`i dunno what to do`, which names neither the token nor the path (the
`Unknown command or group` message naming a component exists only in help-path
resolution). -/
theorem c5_unmatched_token_is_positional (members : List (String × JsValue))
    (tok : String)
    (hhelp : jsToLowerCase tok ≠ "help")
    (hmem : lookupMember members tok = none)
    (hflag : jsStartsWith tok FLAG_PREFIX = false) :
    resolveArgs true (.vObj members) [tok] =
      ⟨.val (.vObj members), 0, false, [tok], []⟩ ∧
    runInternal true (.vObj members) [tok] = .fatalError "i dunno what to do" := by
  have hstep : runStep true ⟨.val (.vObj members), 0, false, [], []⟩ tok =
      ⟨.val (.vObj members), 0, false, [tok], []⟩ := by
    unfold runStep
    rw [if_neg (by simp [hhelp])]
    simp [getProp, hmem, isNotNull, hflag]
  have hres : resolveArgs true (.vObj members) [tok] =
      ⟨.val (.vObj members), 0, false, [tok], []⟩ := by
    simpa [resolveArgs] using hstep
  refine ⟨hres, ?_⟩
  unfold runInternal
  rw [hres]
  rfl

/-- Witness for C5 (amended) on the demo tree. -/
theorem c5_unmatched_token_is_positional_witness :
    resolveArgs true demoProgram ["nonsense"] =
      ⟨.val demoProgram, 0, false, ["nonsense"], []⟩ ∧
    runInternal true demoProgram ["nonsense"] = .fatalError "i dunno what to do" :=
  c5_unmatched_token_is_positional _ "nonsense" (by decide) rfl rfl

/-- C6: a flag token is the prefix, then the name up to the first `=`, then a
value that keeps every later `=`; with no `=` at all the value is the empty
string.  Stated over the character lists of the name and the remainder. -/
theorem c6_flag_name_value_split (pre post : List Char) (h : '=' ∉ pre) :
    parseFlagToken (String.mk ('-' :: '-' :: (pre ++ '=' :: post))) =
      (String.mk pre, String.mk post) ∧
    parseFlagToken (String.mk ('-' :: '-' :: pre)) = (String.mk pre, "") := by
  constructor
  · unfold parseFlagToken
    have hd : (String.mk ('-' :: '-' :: (pre ++ '=' :: post))).toList.drop
        FLAG_PREFIX.length = pre ++ '=' :: post := rfl
    rw [hd, splitAllChar_first '=' pre post h]
    show (String.mk pre, String.mk (joinSep '=' (splitAllChar '=' post))) = _
    rw [joinSep_splitAllChar]
  · unfold parseFlagToken
    have hd : (String.mk ('-' :: '-' :: pre)).toList.drop FLAG_PREFIX.length = pre :=
      rfl
    rw [hd, splitAllChar_no_occurrence '=' pre h]
    rfl

/-- Witness for C6: `--x=a=b` records name `x` and value `a=b`; `--x` records
the empty value. -/
theorem c6_flag_name_value_split_witness :
    parseFlagToken "--x=a=b" = ("x", "a=b") ∧ parseFlagToken "--x" = ("x", "") :=
  c6_flag_name_value_split ['x'] ['a', '=', 'b'] (by decide)

/-- C7: a terminal callable is invoked with the accumulated positionals in
encounter order, with no arity check: on the demo tree, `["version","extra"]`
invokes the zero-parameter `version` with the extra positional and raises no
error, and `["foo","bar"]` invokes the two-parameter `bar` with no arguments
(missing trailing positionals are simply absent from the call). -/
theorem c7_positional_passthrough :
    runInternal true demoProgram ["version", "extra"] = .invoke "version" ["extra"] ∧
    runInternal true demoProgram ["foo", "bar"] = .invoke "bar" [] :=
  ⟨rfl, rfl⟩

/-- C8: `Cli.of` installs the first binding into the empty instance slot and
returns it; with a binding already installed it fails fast with the singleton
error, leaving the slot holding the first binding unchanged. -/
theorem c8_singleton_binding (first p : JsValue) :
    cliOf none p = (some p, .ok p) ∧
    cliOf (some first) p =
      (some first, .error "Cli is a singleton, cannot create multiple instances") :=
  ⟨rfl, rfl⟩

/-- C9: `humanReadableType` is total (it is a terminating Lean function) and
renders recursively: a record type as `Map<` key rendering `, ` value
rendering `>`, an array type as the element rendering followed by `[]`, a type
reference as the rendering of its underlying type with the nullable flag
discarded, a named object type as its name, and an anonymous object type as
`unknown`. -/
theorem c9_human_readable_type :
    (∀ t b, humanReadableTypeRef (.mk t b) = humanReadableType t) ∧
    (∀ k v, humanReadableType (.recordType k v) =
      "Map<" ++ humanReadableType (.scalar k) ++ ", " ++ humanReadableTypeRef v ++ ">") ∧
    (∀ v, humanReadableType (.arrayType v) = humanReadableTypeRef v ++ "[]") ∧
    (∀ n, humanReadableType (.objectType (some n)) = n) ∧
    humanReadableType (.objectType none) = "unknown" ∧
    (∀ s, humanReadableType (.scalar s) = s) :=
  by
  refine ⟨fun t b => ?_, fun k v => ?_, fun v => ?_, fun n => ?_, ?_, fun s => ?_⟩ <;>
    simp [humanReadableType, humanReadableTypeRef]

/-- C10: while Navigating, a token naming a member whose live value is
null/undefined is not treated as a command or group — the member read is
non-null-checked away and the token is classified as a flag when it starts
with the flag prefix and as a positional otherwise, with context, depth and
finality untouched, exactly as for an absent member. -/
theorem c10_null_member_skipped (members : List (String × JsValue)) (depth : Nat)
    (pos : List String) (flags : List (String × String)) (tok : String)
    (hhelp : ¬(depth = 0 ∧ jsToLowerCase tok = "help"))
    (hmem : lookupMember members tok = some .vNull) :
    runStep true ⟨.val (.vObj members), depth, false, pos, flags⟩ tok =
      (if jsStartsWith tok FLAG_PREFIX then
        ⟨.val (.vObj members), depth, false, pos,
          setFlag flags (parseFlagToken tok).1 (parseFlagToken tok).2⟩
      else
        ⟨.val (.vObj members), depth, false, pos ++ [tok], flags⟩) := by
  unfold runStep
  rw [if_neg (by simpa using hhelp)]
  simp only [getProp, hmem, isNotNull]
  by_cases hf : jsStartsWith tok FLAG_PREFIX
  · simp [hf]
  · simp [hf]

/-- Witness for C10: a member bound to null is skipped and the token becomes a
positional. -/
theorem c10_null_member_skipped_witness :
    runStep true ⟨.val (.vObj [("x", .vNull)]), 0, false, [], []⟩ "x" =
      ⟨.val (.vObj [("x", .vNull)]), 0, false, ["x"], []⟩ := by
  rw [c10_null_member_skipped [("x", .vNull)] 0 [] [] "x" (by decide) rfl]
  rfl
